import Mathlib

/-!
Verification of the DustElectron metadata-acquisition pipeline.

The definitions below are a shallow embedding of the JavaScript sources:

* `src/platforms/dlsite-api.js`   — class `DLSiteClient` (`findProductId`,
  `_ensureAbsoluteUrl`, `getWorkDetails`, `downloadImage`, `generateGameId`,
  `createGameInfo`, `getGameInfo`),
* `src/modules/network-manager.js` — `makeRequest` / `shouldRetry`,
* `src/modules/openvpn-manager.js` — `connectToVPN` / `disconnect`,
* `src/unnamed/part_002`           — `isValidProductId`.

Strings are modelled as `String` / `List Char`; JavaScript `undefined`/`null`
become `Option`; JS truthiness of strings (empty string is falsy) is modelled
explicitly; exceptions become `Except`.  External effects (network responses,
process spawning, `Date.now()` randomness) are supplied as oracle parameters,
so every definition is executable.
-/

namespace Dust

/-- ASCII digit test, JS `\d` (chars `'0'`–`'9'`). -/
def isDigitChar (c : Char) : Bool := decide (48 ≤ c.toNat) && decide (c.toNat ≤ 57)

/-- ASCII lowercase letter test (chars `'a'`–`'z'`). -/
def isLowerAscii (c : Char) : Bool := decide (97 ≤ c.toNat) && decide (c.toNat ≤ 122)

/-- JS `String.prototype.toUpperCase` on one ASCII char. -/
def upChar (c : Char) : Char := if isLowerAscii c then Char.ofNat (c.toNat - 32) else c

/-- JS regex `\w` character class: `[A-Za-z0-9_]`. -/
def wordCharB (c : Char) : Bool :=
  isDigitChar c || (decide (65 ≤ c.toNat) && decide (c.toNat ≤ 90)) || isLowerAscii c || c == '_'

/-- JS truthiness for an optional string: `undefined`, `null` and `""` are falsy. -/
def jsTruthy : Option String → Option String
  | some s => if s = "" then none else some s
  | none => none

/-- JS `a || d` where `a` is an optional string field and `d` a string default. -/
def orStr (a : Option String) (d : String) : String :=
  match jsTruthy a with
  | some s => s
  | none => d

/-- JS `a || b` where both sides are optional strings (the right side is
returned unevaluated-for-truthiness, exactly as `||` does). -/
def jsOrOpt (a b : Option String) : Option String :=
  match jsTruthy a with
  | some s => some s
  | none => b

/-- JS `xs || []` for an optional list field (an empty array is truthy). -/
def jsOrList (o : Option (List String)) : List String := o.getD []

/-- `str.startsWith('//')` at the character-list level. -/
def startsSlashSlash : List Char → Bool
  | a :: b :: _ => a == '/' && b == '/'
  | _ => false

/-- `str.startsWith('/')`. -/
def startsSlash : List Char → Bool
  | a :: _ => a == '/'
  | _ => false

/-- `str.startsWith('http://')`. -/
def startsHttp : List Char → Bool
  | a :: b :: c :: d :: e :: f :: g :: _ =>
      a == 'h' && b == 't' && c == 't' && d == 'p' && e == ':' && f == '/' && g == '/'
  | _ => false

/-- `str.startsWith('https://')`. -/
def startsHttps : List Char → Bool
  | a :: b :: c :: d :: e :: f :: g :: h :: _ =>
      a == 'h' && b == 't' && c == 't' && d == 'p' && e == 's' && f == ':' && g == '/' && h == '/'
  | _ => false

/-- The platform base origin used by `_ensureAbsoluteUrl`. -/
def dlsiteBase : List Char := "https://www.dlsite.com".toList

/-- Base origin plus the separating slash for bare relative paths. -/
def dlsiteBaseSlash : List Char := "https://www.dlsite.com/".toList

/-- The scheme prepended to protocol-relative URLs. -/
def httpsColon : List Char := "https:".toList

/-- `DLSiteClient._ensureAbsoluteUrl` (src/platforms/dlsite-api.js:88-102).
`none` models both a `null`/`undefined` argument and the `null` result for a
falsy URL; `some []` is the empty string, which is falsy in JS. -/
def ensureAbsoluteUrl : Option (List Char) → Option (List Char)
  | none => none
  | some [] => none
  | some (c :: cs) =>
    let u := c :: cs
    if startsSlashSlash u then some (httpsColon ++ u)
    else if !startsHttp u && !startsHttps u then
      if startsSlash u then some (dlsiteBase ++ u) else some (dlsiteBaseSlash ++ u)
    else some u

theorem ensureAbsoluteUrl_some_cons (a : Char) (t : List Char) :
    ensureAbsoluteUrl (some (a :: t)) =
      (if startsSlashSlash (a :: t) then some (httpsColon ++ (a :: t))
       else if !startsHttp (a :: t) && !startsHttps (a :: t) then
         (if startsSlash (a :: t) then some (dlsiteBase ++ (a :: t))
          else some (dlsiteBaseSlash ++ (a :: t)))
       else some (a :: t)) := rfl

theorem ensure_fix_base (v : List Char) :
    ensureAbsoluteUrl (some (dlsiteBase ++ v)) = some (dlsiteBase ++ v) := rfl

theorem ensure_fix_baseSlash (v : List Char) :
    ensureAbsoluteUrl (some (dlsiteBaseSlash ++ v)) = some (dlsiteBaseSlash ++ v) := rfl

theorem ensure_fix_https (v : List Char) :
    ensureAbsoluteUrl (some (httpsColon ++ '/' :: '/' :: v)) =
      some (httpsColon ++ '/' :: '/' :: v) := rfl

/-- C6: the URL-absolutizing function `_ensureAbsoluteUrl` is idempotent: for
every input (covering all four categories — protocol-relative, root-relative,
bare relative, already absolute — as well as the falsy inputs), applying it
twice yields the same result as applying it once. -/
theorem c6_ensureAbsoluteUrl_idempotent (o : Option (List Char)) :
    ensureAbsoluteUrl (ensureAbsoluteUrl o) = ensureAbsoluteUrl o := by
  match o with
  | none => rfl
  | some [] => rfl
  | some (a :: t) =>
    match t with
    | [] =>
      cases hsl : startsSlash [a] with
      | true =>
        have hu : ensureAbsoluteUrl (some [a]) = some (dlsiteBase ++ [a]) := by
          rw [ensureAbsoluteUrl_some_cons, hsl]
          rfl
        rw [hu]
        exact ensure_fix_base [a]
      | false =>
        have hu : ensureAbsoluteUrl (some [a]) = some (dlsiteBaseSlash ++ [a]) := by
          rw [ensureAbsoluteUrl_some_cons, hsl]
          rfl
        rw [hu]
        exact ensure_fix_baseSlash [a]
    | b :: t' =>
      cases hss : startsSlashSlash (a :: b :: t') with
      | true =>
        have hab : a = '/' ∧ b = '/' := by
          have : (a == '/' && b == '/') = true := hss
          simpa using this
        obtain ⟨ha, hb⟩ := hab
        subst ha; subst hb
        exact ensure_fix_https t'
      | false =>
        cases habs : startsHttp (a :: b :: t') || startsHttps (a :: b :: t') with
        | true =>
          have hcond : (!startsHttp (a :: b :: t') && !startsHttps (a :: b :: t')) = false := by
            rcases Bool.or_eq_true_iff.mp habs with h | h <;> simp [h]
          have hu : ensureAbsoluteUrl (some (a :: b :: t')) = some (a :: b :: t') := by
            rw [ensureAbsoluteUrl_some_cons, hss, hcond]
            rfl
          rw [hu, hu]
        | false =>
          have ⟨hht, hhts⟩ : startsHttp (a :: b :: t') = false ∧
              startsHttps (a :: b :: t') = false := by
            constructor <;> [exact (Bool.or_eq_false_iff.mp habs).1;
              exact (Bool.or_eq_false_iff.mp habs).2]
          cases hsl : startsSlash (a :: b :: t') with
          | true =>
            have hu : ensureAbsoluteUrl (some (a :: b :: t')) =
                some (dlsiteBase ++ (a :: b :: t')) := by
              rw [ensureAbsoluteUrl_some_cons, hss, hht, hhts, hsl]
              rfl
            rw [hu]
            exact ensure_fix_base (a :: b :: t')
          | false =>
            have hu : ensureAbsoluteUrl (some (a :: b :: t')) =
                some (dlsiteBaseSlash ++ (a :: b :: t')) := by
              rw [ensureAbsoluteUrl_some_cons, hss, hht, hhts, hsl]
              rfl
            rw [hu]
            exact ensure_fix_baseSlash (a :: b :: t')

/-- One of `B`, `R`, `V` in either case — the character class `[BRV]` under the
`i` flag of the regex in `findProductId`. -/
def brvChar (c : Char) : Bool :=
  c == 'B' || c == 'R' || c == 'V' || c == 'b' || c == 'r' || c == 'v'

/-- `J` in either case. -/
def jChar (c : Char) : Bool := c == 'J' || c == 'j'

/-- Attempt of the regex body `[BRV]J\d+` (case-insensitive, `\d+` greedy)
anchored at the head of the list; returns the matched characters. -/
def matchLaxAt : List Char → Option (List Char)
  | c0 :: c1 :: rest =>
    if brvChar c0 && jChar c1 then
      match rest.takeWhile isDigitChar with
      | [] => none
      | d :: ds => some (c0 :: c1 :: d :: ds)
    else none
  | _ => none

/-- Whether the character preceding the current position is a `\w` character;
`none` is the start of the string. -/
def wordCharOpt : Option Char → Bool
  | none => false
  | some c => wordCharB c

/-- Leftmost-match scan of `/(?<!\w)[BRV]J\d+/i`, carrying the previous
character for the negative lookbehind. -/
def scanFindLax : Option Char → List Char → Option (List Char)
  | _, [] => none
  | prev, c :: rest =>
    match (if !wordCharOpt prev then matchLaxAt (c :: rest) else none) with
    | some m => some m
    | none => scanFindLax (some c) rest

/-- `DLSiteClient.findProductId` (src/platforms/dlsite-api.js:63-69):
`str.match(/(?<!\w)[BRV]J\d+/i)`, upper-cased on success; `none` models the
thrown `No valid DLSite product ID found` error. -/
def findProductId (s : String) : Option String :=
  (scanFindLax none s.toList).map (fun m => String.mk (m.map upChar))

/-- `isValidProductId` (src/unnamed/part_002:933-942): strict full-string test
`/^[BRV]J\d{6,8}$/i`. -/
def isValidProductId (s : String) : Bool :=
  match s.toList with
  | a :: b :: ds =>
    (upChar a == 'B' || upChar a == 'R' || upChar a == 'V') && upChar b == 'J'
      && decide (6 ≤ ds.length) && decide (ds.length ≤ 8) && ds.all isDigitChar
  | _ => false

/-- A match of the claim's pattern — a platform prefix letter followed by 6–8
digits — anchored at the head of the list (6 or more consecutive digits
suffice for a 6–8 digit substring to exist here). -/
def strictAt : List Char → Bool
  | c0 :: c1 :: rest =>
    brvChar c0 && jChar c1 && decide (6 ≤ (rest.takeWhile isDigitChar).length)
  | _ => false

/-- The claim's antecedent: the string contains a substring matching the
platform ID pattern `[BRV]J` + 6–8 digits (case-insensitively). -/
def hasStrictIdSub (s : String) : Bool := s.toList.tails.any strictAt

/-- The pattern `findProductId` actually searches for: some position not
preceded by a `\w` character carries a `[BRV]J\d+` match. -/
def hasLaxIdSubAux : Option Char → List Char → Bool
  | _, [] => false
  | prev, c :: rest =>
    (!wordCharOpt prev && (matchLaxAt (c :: rest)).isSome) || hasLaxIdSubAux (some c) rest

/-- String-level version of `hasLaxIdSubAux`, starting at the string start. -/
def hasLaxIdSub (s : String) : Bool := hasLaxIdSubAux none s.toList

/-- Full-string shape of every value `findProductId` can return: an uppercase
`B`/`R`/`V`, then `J`, then one or more digits (no 6–8 length bound). -/
def laxValid (s : String) : Bool :=
  match s.toList with
  | a :: b :: ds =>
    (a == 'B' || a == 'R' || a == 'V') && b == 'J' && !ds.isEmpty && ds.all isDigitChar
  | _ => false

theorem scanFindLax_isSome (s : List Char) :
    ∀ prev, (scanFindLax prev s).isSome = hasLaxIdSubAux prev s := by
  induction s with
  | nil => intro prev; rfl
  | cons c rest ih =>
    intro prev
    rw [scanFindLax, hasLaxIdSubAux]
    cases hw : wordCharOpt prev with
    | true => simpa using ih (some c)
    | false =>
      cases hm : matchLaxAt (c :: rest) with
      | none => simpa [hm] using ih (some c)
      | some m => simp [hm]

theorem scanFindLax_shape (s : List Char) :
    ∀ prev m, scanFindLax prev s = some m → ∃ u, matchLaxAt u = some m := by
  induction s with
  | nil => intro prev m h; exact absurd h (by simp [scanFindLax])
  | cons c rest ih =>
    intro prev m h
    rw [scanFindLax] at h
    cases hw : wordCharOpt prev with
    | true =>
      rw [hw] at h
      exact ih (some c) m h
    | false =>
      rw [hw] at h
      cases hm : matchLaxAt (c :: rest) with
      | none => rw [hm] at h; exact ih (some c) m h
      | some m' =>
        rw [hm] at h
        have hmm : m' = m := Option.some.inj h
        exact ⟨c :: rest, by rw [hm, hmm]⟩

theorem upChar_digit (c : Char) (h : isDigitChar c = true) : upChar c = c := by
  have hd : 48 ≤ c.toNat ∧ c.toNat ≤ 57 := by
    simpa [isDigitChar] using h
  have hl : isLowerAscii c = false := by
    simp only [isLowerAscii, Bool.and_eq_false_iff, decide_eq_false_iff_not]
    omega
  simp [upChar, hl]

theorem matchLaxAt_shape (u m : List Char) (h : matchLaxAt u = some m) :
    laxValid (String.mk (m.map upChar)) = true := by
  match u with
  | [] => exact absurd h (by simp [matchLaxAt])
  | [c] => exact absurd h (by simp [matchLaxAt])
  | c0 :: c1 :: rest =>
    rw [matchLaxAt] at h
    by_cases hc : (brvChar c0 && jChar c1) = true
    · rw [if_pos hc] at h
      cases htw : rest.takeWhile isDigitChar with
      | nil => rw [htw] at h; exact absurd h (by simp)
      | cons d ds =>
        rw [htw] at h
        simp only [Option.some.injEq] at h
        subst h
        have hdig : ∀ x ∈ d :: ds, isDigitChar x = true := by
          intro x hx
          rw [← htw] at hx
          exact List.mem_takeWhile_imp hx
        have hmap : (d :: ds).map upChar = d :: ds := by
          have := List.map_congr_left (f := upChar) (g := id)
            (fun a ha => upChar_digit a (hdig a ha))
          simpa using this
        have hbrv : c0 = 'B' ∨ c0 = 'R' ∨ c0 = 'V' ∨ c0 = 'b' ∨ c0 = 'r' ∨ c0 = 'v' := by
          have := (Bool.and_eq_true _ _).mp hc |>.1
          simpa [brvChar, or_assoc] using this
        have hj : c1 = 'J' ∨ c1 = 'j' := by
          have := (Bool.and_eq_true _ _).mp hc |>.2
          simpa [jChar] using this
        show laxValid (String.mk (upChar c0 :: upChar c1 :: (d :: ds).map upChar)) = true
        rw [hmap]
        have hstr : (String.mk (upChar c0 :: upChar c1 :: d :: ds)).toList
            = upChar c0 :: upChar c1 :: d :: ds := rfl
        rw [laxValid, hstr]
        have h1 : (upChar c0 == 'B' || upChar c0 == 'R' || upChar c0 == 'V') = true := by
          rcases hbrv with h | h | h | h | h | h <;> subst h <;> decide
        have h2 : (upChar c1 == 'J') = true := by
          rcases hj with h | h <;> subst h <;> decide
        have h3 : (d :: ds).all isDigitChar = true :=
          List.all_eq_true.mpr (fun x hx => hdig x hx)
        simp [h1, h2, h3]
    · rw [if_neg hc] at h
      exact absurd h (by simp)

/-- C3 counterexample: `"RJ123"` contains no substring matching the strict
pattern (prefix + 6–8 digits), yet `findProductId` does not fail — it returns
`"RJ123"` — and that returned id fails the strict validation
`isValidProductId`.  This refutes both halves of the claim as stated. -/
theorem c3_counterexample :
    hasStrictIdSub "RJ123" = false ∧ findProductId "RJ123" = some "RJ123"
      ∧ isValidProductId "RJ123" = false := by
  refine ⟨by decide, by decide, by decide⟩

/-- C3 (amended): `findProductId` fails exactly when the input contains no
substring matching `[BRV]J` followed by one or more digits and not preceded by
a word character (the code's `/(?<!\w)[BRV]J\d+/i`, with no 6–8 digit bound);
every id it returns matches the uppercase shape `[BRV]J\d+`, but may have
fewer than 6 or more than 8 digits and hence fail `isValidProductId`. -/
theorem c3_findProductId_amended (s : String) :
    (findProductId s = none ↔ hasLaxIdSub s = false)
      ∧ (∀ r, findProductId s = some r → laxValid r = true) := by
  constructor
  · rw [findProductId, hasLaxIdSub, ← scanFindLax_isSome s.toList none]
    cases h : scanFindLax none s.toList <;> simp [h]
  · intro r h
    rw [findProductId] at h
    cases hs : scanFindLax none s.toList with
    | none => rw [hs] at h; exact absurd h (by simp)
    | some m =>
      rw [hs] at h
      simp only [Option.map_some', Option.some.injEq] at h
      obtain ⟨u, hu⟩ := scanFindLax_shape s.toList none m hs
      rw [← h]
      exact matchLaxAt_shape u m hu

/-- C3 witness: the amended theorem applied at concrete inputs — a path
containing `"RJ01347095"` resolves to a lax-shaped id, and a string with no
occurrence at all makes resolution fail. -/
theorem c3_findProductId_witness :
    laxValid "RJ01347095" = true ∧ findProductId "no id here" = none :=
  ⟨(c3_findProductId_amended "some/path/RJ01347095").2 "RJ01347095" (by decide),
   (c3_findProductId_amended "no id here").1.mpr (by decide)⟩

/-- List-level `startsWith` used to define substring containment. -/
def leadsWith : List Char → List Char → Bool
  | [], _ => true
  | _ :: _, [] => false
  | a :: as, b :: bs => a == b && leadsWith as bs

/-- JS `String.prototype.includes`: some suffix of `s` starts with `pat`. -/
def containsSub : List Char → List Char → Bool
  | pat, [] => leadsWith pat []
  | pat, c :: rest => leadsWith pat (c :: rest) || containsSub pat rest

/-- A JS `Error` as inspected by `NetworkManager.shouldRetry`: `message` plus
an optional `code` property. -/
structure NetErrorJS where
  message : String
  code : Option String
deriving DecidableEq

/-- The transient-error allow-list of `NetworkManager.shouldRetry`
(src/modules/network-manager.js:97-110). -/
def retryableErrors : List String :=
  ["ECONNRESET", "ETIMEDOUT", "ECONNREFUSED", "EHOSTUNREACH", "socket hang up"]

/-- `NetworkManager.shouldRetry`: `error.message.includes(err) || error.code === err`
for some allow-listed `err`. -/
def shouldRetry (e : NetErrorJS) : Bool :=
  retryableErrors.any (fun err => containsSub err.toList e.message.toList || e.code == some err)

/-- Outcome of one `fetch` attempt: a response (opaque token) or a thrown
network error. -/
inductive AttemptOutcome where
  | resp (v : Nat)
  | err (e : NetErrorJS)

/-- Observable result of a `makeRequest` run: the value or propagated error,
the total number of `fetch` attempts, and the total backoff waited. -/
structure RunResult where
  result : Except NetErrorJS Nat
  attempts : Nat
  delayMs : Nat

/-- `NetworkManager.makeRequest` (src/modules/network-manager.js:59-95).  The
network is an oracle `retryCount ↦ outcome of that attempt`.  On failure the
code recurses with `retryCount + 1` while `retryCount < maxRetries &&
shouldRetry(error)`, waiting 2000 ms before each retry; otherwise the error
propagates.  (The VPN-proxy/timeout option plumbing does not affect the retry
accounting and is not modelled.) -/
def makeRequestAux (oracle : Nat → AttemptOutcome) (maxRetries retryCount : Nat) : RunResult :=
  match oracle retryCount with
  | .resp v => ⟨.ok v, 1, 0⟩
  | .err e =>
    if h : retryCount < maxRetries ∧ shouldRetry e = true then
      let rest := makeRequestAux oracle maxRetries (retryCount + 1)
      ⟨rest.result, rest.attempts + 1, rest.delayMs + 2000⟩
    else ⟨.error e, 1, 0⟩
termination_by maxRetries - retryCount
decreasing_by omega

/-- Entry point: `this.maxRetries = 3`, first call has `retryCount = 0`. -/
def makeRequest (oracle : Nat → AttemptOutcome) : RunResult := makeRequestAux oracle 3 0

theorem makeRequestAux_eq (oracle : Nat → AttemptOutcome) (maxRetries retryCount : Nat) :
    makeRequestAux oracle maxRetries retryCount =
      match oracle retryCount with
      | .resp v => ⟨.ok v, 1, 0⟩
      | .err e =>
        if _ : retryCount < maxRetries ∧ shouldRetry e = true then
          let rest := makeRequestAux oracle maxRetries (retryCount + 1)
          ⟨rest.result, rest.attempts + 1, rest.delayMs + 2000⟩
        else ⟨.error e, 1, 0⟩ := by
  rw [makeRequestAux]

theorem makeRequestAux_resp (oracle : Nat → AttemptOutcome) (m r v : Nat)
    (h : oracle r = .resp v) : makeRequestAux oracle m r = ⟨.ok v, 1, 0⟩ := by
  rw [makeRequestAux_eq, h]

theorem makeRequestAux_err (oracle : Nat → AttemptOutcome) (m r : Nat) (e : NetErrorJS)
    (h : oracle r = .err e) :
    makeRequestAux oracle m r =
      if _ : r < m ∧ shouldRetry e = true then
        ⟨(makeRequestAux oracle m (r + 1)).result,
         (makeRequestAux oracle m (r + 1)).attempts + 1,
         (makeRequestAux oracle m (r + 1)).delayMs + 2000⟩
      else ⟨.error e, 1, 0⟩ := by
  rw [makeRequestAux_eq, h]

theorem makeRequestAux_spec (oracle : Nat → AttemptOutcome) (m : Nat) :
    ∀ fuel r, m - r ≤ fuel →
      1 ≤ (makeRequestAux oracle m r).attempts
        ∧ (makeRequestAux oracle m r).attempts ≤ fuel + 1
        ∧ (makeRequestAux oracle m r).delayMs
            = 2000 * ((makeRequestAux oracle m r).attempts - 1) := by
  intro fuel
  induction fuel with
  | zero =>
    intro r hr
    cases ho : oracle r with
    | resp v =>
      rw [makeRequestAux_resp oracle m r v ho]
      exact ⟨Nat.le_refl 1, Nat.succ_le_succ (Nat.zero_le _), rfl⟩
    | err e =>
      rw [makeRequestAux_err oracle m r e ho,
        dif_neg (fun hc => absurd hc.1 (by omega : ¬r < m))]
      exact ⟨Nat.le_refl 1, Nat.succ_le_succ (Nat.zero_le _), rfl⟩
  | succ n ih =>
    intro r hr
    cases ho : oracle r with
    | resp v =>
      rw [makeRequestAux_resp oracle m r v ho]
      exact ⟨Nat.le_refl 1, Nat.succ_le_succ (Nat.zero_le _), rfl⟩
    | err e =>
      rw [makeRequestAux_err oracle m r e ho]
      by_cases hc : r < m ∧ shouldRetry e = true
      · rw [dif_pos hc]
        obtain ⟨h1, h2, h3⟩ := ih (r + 1) (by omega)
        refine ⟨?_, ?_, ?_⟩
        · show 1 ≤ (makeRequestAux oracle m (r + 1)).attempts + 1
          omega
        · show (makeRequestAux oracle m (r + 1)).attempts + 1 ≤ n + 1 + 1
          omega
        · show (makeRequestAux oracle m (r + 1)).delayMs + 2000
            = 2000 * ((makeRequestAux oracle m (r + 1)).attempts + 1 - 1)
          omega
      · rw [dif_neg hc]
        exact ⟨Nat.le_refl 1, Nat.succ_le_succ (Nat.zero_le _), rfl⟩

/-- The network oracle that fails every attempt with `ECONNRESET` (an
allow-listed transient error). -/
def alwaysReset : Nat → AttemptOutcome := fun _ => .err ⟨"ECONNRESET", none⟩

theorem shouldRetry_reset : shouldRetry ⟨"ECONNRESET", none⟩ = true := by decide

theorem makeRequest_alwaysReset :
    makeRequest alwaysReset = ⟨.error ⟨"ECONNRESET", none⟩, 4, 6000⟩ := by
  have s3 : makeRequestAux alwaysReset 3 3 = ⟨.error ⟨"ECONNRESET", none⟩, 1, 0⟩ := by
    rw [makeRequestAux_err alwaysReset 3 3 _ rfl,
      dif_neg (fun hc => absurd hc.1 (by omega : ¬(3 : Nat) < 3))]
  have s2 : makeRequestAux alwaysReset 3 2 = ⟨.error ⟨"ECONNRESET", none⟩, 2, 2000⟩ := by
    rw [makeRequestAux_err alwaysReset 3 2 _ rfl,
      dif_pos ⟨by omega, shouldRetry_reset⟩, s3]
  have s1 : makeRequestAux alwaysReset 3 1 = ⟨.error ⟨"ECONNRESET", none⟩, 3, 4000⟩ := by
    rw [makeRequestAux_err alwaysReset 3 1 _ rfl,
      dif_pos ⟨by omega, shouldRetry_reset⟩, s2]
  rw [makeRequest, makeRequestAux_err alwaysReset 3 0 _ rfl,
    dif_pos ⟨by omega, shouldRetry_reset⟩, s1]

/-- C4 counterexample: with every attempt failing on an allow-listed transient
error (`ECONNRESET`), `makeRequest` performs 4 attempts in total (the initial
attempt plus `maxRetries = 3` retries), not "at most 3 attempts in total" as
claimed, waiting the fixed 2 s before each of the 3 retries. -/
theorem c4_counterexample :
    (makeRequest alwaysReset).attempts = 4 ∧ (makeRequest alwaysReset).attempts ≠ 3
      ∧ (makeRequest alwaysReset).delayMs = 6000 := by
  rw [makeRequest_alwaysReset]
  exact ⟨rfl, by decide, rfl⟩

/-- C4 (amended): a dispatch failing with an allow-listed transient error is
retried after a fixed 2-second delay, making at most 4 attempts in total (1
initial + up to 3 retries) before the error propagates; the total backoff is
2 s per retry performed; and an error not on the allow-list propagates
immediately after a single attempt with no delay. -/
theorem c4_makeRequest_amended (oracle : Nat → AttemptOutcome) :
    (makeRequest oracle).attempts ≤ 4
      ∧ (makeRequest oracle).delayMs = 2000 * ((makeRequest oracle).attempts - 1)
      ∧ (∀ e, oracle 0 = .err e → shouldRetry e = false →
          makeRequest oracle = ⟨.error e, 1, 0⟩) := by
  have h := makeRequestAux_spec oracle 3 3 0 (by omega)
  refine ⟨h.2.1, h.2.2, ?_⟩
  intro e h0 hsr
  rw [makeRequest, makeRequestAux_err oracle 3 0 e h0,
    dif_neg (fun hc => by rw [hsr] at hc; exact absurd hc.2 (by decide))]

/-- C4 witness: a DNS-style failure (`ENOTFOUND`, not on the allow-list)
propagates immediately: exactly one attempt, no delay. -/
theorem c4_witness :
    makeRequest (fun _ => .err ⟨"getaddrinfo ENOTFOUND www.dlsite.com", none⟩)
      = ⟨.error ⟨"getaddrinfo ENOTFOUND www.dlsite.com", none⟩, 1, 0⟩ :=
  (c4_makeRequest_amended (fun _ => .err ⟨"getaddrinfo ENOTFOUND www.dlsite.com", none⟩)).2.2
    ⟨"getaddrinfo ENOTFOUND www.dlsite.com", none⟩ rfl (by decide)

/-- Match of `/[BRV]J\d{6,8}/i` (no lookbehind, greedy up to 8 digits)
anchored at the head of the list. -/
def scanStrictAt : List Char → Option (List Char)
  | c0 :: c1 :: rest =>
    if brvChar c0 && jChar c1 then
      let ds := rest.takeWhile isDigitChar
      if 6 ≤ ds.length then some (c0 :: c1 :: ds.take 8) else none
    else none
  | _ => none

/-- Leftmost match of `/[BRV]J\d{6,8}/i` anywhere in the list. -/
def scanStrict : List Char → Option (List Char)
  | [] => none
  | c :: rest =>
    match scanStrictAt (c :: rest) with
    | some m => some m
    | none => scanStrict rest

/-- `imageUrl.match(/[BRV]J\d{6,8}/i)` upper-cased, with the code's
`"unknown"` fallback (src/platforms/dlsite-api.js:596-602). -/
def extractPidFromUrl (url : String) : String :=
  match scanStrict url.toList with
  | some m => String.mk (m.map upChar)
  | none => "unknown"

/-- JS `String.prototype.padStart(5, '0')`. -/
def padStart5 (s : String) : String :=
  if s.length < 5 then String.mk (List.replicate (5 - s.length) '0') ++ s else s

/-- JS `Number.prototype.toString(16)` for a natural number (lowercase hex). -/
def toHex (n : Nat) : String := String.mk (Nat.toDigits 16 n)

/-- The basename of a path/URL: everything after the last `/`. -/
def basenameChars (s : List Char) : List Char :=
  (s.reverse.takeWhile (fun c => c != '/')).reverse

/-- Node's `path.extname`: the suffix of the basename from its last `.`;
empty when there is no dot or the only dot is the leading character. -/
def extname (s : String) : String :=
  let b := basenameChars s.toList
  let revB := b.reverse
  let pre := revB.takeWhile (fun c => c != '.')
  if pre.length = revB.length then ""
  else if pre.length + 1 = b.length then ""
  else String.mk (b.drop (b.length - (pre.length + 1)))

/-- In-memory per-client state of `DLSiteClient`: the `imageCache` map from
absolute image URL to saved web path. -/
structure DLState where
  imageCache : List (String × String)
deriving DecidableEq

/-- Result of one GET dispatched by `downloadImage`: a thrown network error,
or a response with its `ok` flag and HTTP status. -/
inductive NetOutcome where
  | err (msg : String)
  | resp (ok : Bool) (status : Nat)

/-- A JS exception as far as the pipeline observes it: the `TypeError` raised
by reading a property of `null`/`undefined`, or an explicit `throw new
Error(msg)`. -/
inductive JsError where
  | typeError
  | thrown (msg : String)
deriving DecidableEq

/-- The `productId` normalization at the top of `downloadImage`
(src/platforms/dlsite-api.js:592-603): falsy/`"undefined"`/`"null"` ids are
replaced by an id extracted from the URL, else `"unknown"`. -/
def normalizePid (productId : Option String) (url : String) : String :=
  match jsTruthy productId with
  | some p => if p = "undefined" || p = "null" then extractPidFromUrl url else p
  | none => extractPidFromUrl url

/-- The saved file's web path: `assets/games/{idPrefixHex5}_dlsite_{pid}{ext}`
(src/platforms/dlsite-api.js:627-638).  `internalId` of `0` is falsy in JS and
falls back to `"00001"`, as does an absent id; the extension comes from
`path.extname` on the absolute URL, defaulting to `.jpg`. -/
def webPathFor (pidNorm : String) (internalId : Option Nat) (absUrl : String) : String :=
  let idPref :=
    match internalId with
    | some n => if n ≠ 0 then padStart5 (toHex n) else "00001"
    | none => "00001"
  let e := extname absUrl
  let extension := if e = "" then ".jpg" else e
  "assets/games/" ++ (idPref ++ "_dlsite_" ++ pidNorm ++ extension)

/-- The `try` body of `DLSiteClient.downloadImage`
(src/platforms/dlsite-api.js:577-654).  Returns the resolved value (local web
path or `null`), the updated client state, and the number of network
dispatches performed; `.error` carries the thrown error together with the
dispatch count at the point of the throw.  The filesystem write is assumed to
succeed (it is outside the modelled failure modes of the claims). -/
def downloadImageTry (net : String → NetOutcome) (st : DLState)
    (imageUrl productId : Option String) (internalId : Option Nat) :
    Except (JsError × Nat) (Option String × DLState × Nat) :=
  match jsTruthy imageUrl with
  | none => .ok (none, st, 0)
  | some url =>
    let pid := normalizePid productId url
    match ensureAbsoluteUrl (some url.toList) with
    | none => .ok (none, st, 0)
    | some absL =>
      let absUrl := String.mk absL
      match List.lookup absUrl st.imageCache with
      | some cached => .ok (some cached, st, 0)
      | none =>
        match net absUrl with
        | .err m => .error (.thrown m, 1)
        | .resp ok status =>
          if ok then
            let webPath := webPathFor pid internalId absUrl
            .ok (some webPath, ⟨(absUrl, webPath) :: st.imageCache⟩, 1)
          else .error (.thrown ("HTTP error during image download: " ++ toString status), 1)

/-- `DLSiteClient.downloadImage` with its own `catch` block
(src/platforms/dlsite-api.js:655-663): every internal error is caught, logged
and converted into a resolved `null`. -/
def downloadImage (net : String → NetOutcome) (st : DLState)
    (imageUrl productId : Option String) (internalId : Option Nat) :
    Option String × DLState × Nat :=
  match downloadImageTry net st imageUrl productId internalId with
  | .ok r => r
  | .error (_, n) => (none, st, n)

/-- Network oracle whose every response has a non-success status. -/
def net404 : String → NetOutcome := fun _ => .resp false 404

/-- The empty client state (fresh fetcher instance, empty image cache). -/
def st0 : DLState := ⟨[]⟩

/-- C5 counterexample: for a GET returning HTTP 404, the `try` body of
`downloadImage` does throw the internal HTTP error, but `downloadImage`
itself catches it and resolves to `null` — no `DownloadError` propagates to
the caller, contrary to the claim that the error propagates rather than the
call resolving to a value. -/
theorem c5_counterexample :
    downloadImageTry net404 st0 (some "https://img.dlsite.jp/resize/x.jpg")
        (some "RJ123456") none
      = .error (.thrown "HTTP error during image download: 404", 1)
    ∧ downloadImage net404 st0 (some "https://img.dlsite.jp/resize/x.jpg")
        (some "RJ123456") none
      = (none, st0, 1) := ⟨rfl, rfl⟩

/-- C5 (amended): for every image URL whose GET returns a response with a
non-success HTTP status (given a cache miss), `downloadImage` throws an HTTP
error internally but catches it itself and resolves to `null` after exactly
one dispatch, leaving the cache unchanged; the caller sees "no image", not an
error. -/
theorem c5_downloadImage_amended (net : String → NetOutcome) (st : DLState)
    (u : String) (pid : Option String) (iid : Option Nat) (absL : List Char) (status : Nat)
    (hu : u ≠ "")
    (habs : ensureAbsoluteUrl (some u.toList) = some absL)
    (hcache : List.lookup (String.mk absL) st.imageCache = none)
    (hnet : net (String.mk absL) = .resp false status) :
    downloadImage net st (some u) pid iid = (none, st, 1) := by
  have habs2 : ensureAbsoluteUrl (some u.data) = some absL := habs
  simp [downloadImage, downloadImageTry, jsTruthy, hu, habs2, hcache, hnet]

/-- C5 witness: the amended theorem applied at a concrete URL with an HTTP
403 response. -/
theorem c5_witness :
    downloadImage (fun _ => .resp false 403) st0
        (some "https://img.dlsite.jp/modpub/images2/work/doujin/RJ01348000/RJ01347095_img_main.webp")
        none (some 7)
      = (none, st0, 1) :=
  c5_downloadImage_amended (fun _ => .resp false 403) st0
    "https://img.dlsite.jp/modpub/images2/work/doujin/RJ01348000/RJ01347095_img_main.webp"
    none (some 7)
    "https://img.dlsite.jp/modpub/images2/work/doujin/RJ01348000/RJ01347095_img_main.webp".toList
    403 (by decide) rfl rfl rfl

/-- C7: within one fetcher-instance lifetime, downloading the same image URL
twice issues exactly one network dispatch: the first (cache-miss) call
dispatches once, stores the resulting web path under the absolutized URL, and
the second call returns that cached path with zero dispatches. -/
theorem c7_downloadImage_cache (net : String → NetOutcome) (st : DLState)
    (u : String) (pid : Option String) (iid : Option Nat) (absL : List Char) (status : Nat)
    (hu : u ≠ "")
    (habs : ensureAbsoluteUrl (some u.toList) = some absL)
    (hcache : List.lookup (String.mk absL) st.imageCache = none)
    (hnet : net (String.mk absL) = .resp true status) :
    downloadImage net st (some u) pid iid
        = (some (webPathFor (normalizePid pid u) iid (String.mk absL)),
           ⟨(String.mk absL, webPathFor (normalizePid pid u) iid (String.mk absL))
             :: st.imageCache⟩, 1)
      ∧ downloadImage net
          ⟨(String.mk absL, webPathFor (normalizePid pid u) iid (String.mk absL))
            :: st.imageCache⟩ (some u) pid iid
        = (some (webPathFor (normalizePid pid u) iid (String.mk absL)),
           ⟨(String.mk absL, webPathFor (normalizePid pid u) iid (String.mk absL))
             :: st.imageCache⟩, 0) := by
  have habs2 : ensureAbsoluteUrl (some u.data) = some absL := habs
  constructor
  · simp [downloadImage, downloadImageTry, jsTruthy, hu, habs2, hcache, hnet]
  · simp [downloadImage, downloadImageTry, jsTruthy, hu, habs2, List.lookup]

/-- C7 witness: the cache theorem at a concrete protocol-relative URL — the
first call saves `assets/games/00001_dlsite_RJ123456.jpg` and the second call
is served from the cache without dispatching. -/
theorem c7_witness :
    downloadImage (fun _ => .resp true 200) st0 (some "//img.dlsite.jp/work/RJ123456.jpg")
        (some "RJ123456") none
        = (some "assets/games/00001_dlsite_RJ123456.jpg",
           ⟨[("https://img.dlsite.jp/work/RJ123456.jpg",
              "assets/games/00001_dlsite_RJ123456.jpg")]⟩, 1)
      ∧ downloadImage (fun _ => .resp true 200)
          ⟨[("https://img.dlsite.jp/work/RJ123456.jpg",
             "assets/games/00001_dlsite_RJ123456.jpg")]⟩
          (some "//img.dlsite.jp/work/RJ123456.jpg") (some "RJ123456") none
        = (some "assets/games/00001_dlsite_RJ123456.jpg",
           ⟨[("https://img.dlsite.jp/work/RJ123456.jpg",
              "assets/games/00001_dlsite_RJ123456.jpg")]⟩, 0) :=
  c7_downloadImage_cache (fun _ => .resp true 200) st0 "//img.dlsite.jp/work/RJ123456.jpg"
    (some "RJ123456") none "https://img.dlsite.jp/work/RJ123456.jpg".toList 200
    (by decide) rfl rfl rfl

/-- JS `String.prototype.toLowerCase` on one ASCII char. -/
def downChar (c : Char) : Char :=
  if decide (65 ≤ c.toNat) && decide (c.toNat ≤ 90) then Char.ofNat (c.toNat + 32) else c

/-- JS `String.prototype.toLowerCase` (ASCII). -/
def lowerStr (s : String) : String := String.mk (s.data.map downChar)

/-- The `RawApiRecord` fields read by `createGameInfo`/`getGameInfo`; every
field may be absent (`undefined`). -/
structure ApiRecord where
  product_id : Option String := none
  work_name : Option String := none
  maker_name : Option String := none
  work_image : Option String := none
  regist_date : Option String := none
  age_rating : Option String := none
  file_format : Option String := none
  description : Option String := none

/-- The `details` object produced by `parseWorkHTML` (plus the `productId`
stub field that `getGameInfo` substitutes when the HTML fetch fails); every
field may be absent. -/
structure HtmlDetails where
  productId : Option String := none
  work_name : Option String := none
  circle : Option String := none
  publisher : Option String := none
  coverImage : Option String := none
  product_format : Option String := none
  age_rating : Option String := none
  file_format : Option String := none
  language : Option String := none
  release_date : Option String := none
  update_date : Option String := none
  file_size : Option String := none
  description : Option String := none
  genre : Option (List String) := none
  tags : Option (List String) := none
  voice_actor : Option (List String) := none
  author : Option (List String) := none
  illustration : Option (List String) := none
  scenario : Option (List String) := none

/-- The `gameInfo` object literal built by `createGameInfo`
(src/platforms/dlsite-api.js:724-761).  `dlsiteId` and `dlsiteCircle` have no
final string default in the code and can be `null`/`undefined`, hence
`Option String`. -/
structure GameInfo where
  id : String
  title : String
  developer : String
  publisher : String
  productFormat : String
  ageRating : String
  fileFormat : String
  genre : String
  releaseDate : String
  updateDate : String
  description : String
  coverImage : String
  source : String
  dlsiteId : Option String
  dlsiteUrl : String
  dlsiteCircle : Option String
  dlsiteTags : List String
  dlsiteVoiceActors : List String
  dlsiteReleaseDate : String
  dlsiteUpdateDate : String
  dlsiteFileSize : String
  dlsiteAgeRating : String
  dlsiteProductFormat : String
  dlsiteFileFormat : String
  language : String
  authors : List String
  illustrators : List String
  scenario : List String
  genreList : List String

/-- `DLSiteClient.generateGameId` (src/platforms/dlsite-api.js:555-568).
`fresh` is the oracle for `Date.now()` + the random suffix used when no
product id is available; `internalId` of `0` is falsy and gets no numeric
prefix (`internalId ? ... : ''`). -/
def generateGameId (fresh : String) (productId : Option String) (internalId : Option Nat) :
    String :=
  match jsTruthy productId with
  | none => "dlsite_" ++ fresh
  | some pid =>
    let pref :=
      match internalId with
      | some n => if n ≠ 0 then padStart5 (toString n) ++ "_" else ""
      | none => ""
    pref ++ "dlsite_" ++ lowerStr pid

/-- The `excludeFromGenres` list hard-coded in `createGameInfo`
(src/platforms/dlsite-api.js:702-709). -/
def excludeFromGenres : List String :=
  ["R18", "All-ages",
   "Role-playing", "Visual Novel", "Simulation", "Adventure", "Action", "Strategy",
   "Voice", "Music", "Sound",
   "Application", "HTML", "Flash", "Unity",
   "Japanese", "English", "Chinese", "Korean",
   "Windows", "Mac", "Android", "iOS"]

/-- The smaller exclusion list applied to `details.tags`
(src/platforms/dlsite-api.js:716). -/
def excludeFromTags : List String := ["R18", "Application", "Japanese", "Role-playing", "Voice"]

/-- First-occurrence deduplication, the order `[...new Set(list)]` preserves. -/
def dedupAux (seen : List String) : List String → List String
  | [] => []
  | x :: xs => if seen.contains x then dedupAux seen xs else x :: dedupAux (x :: seen) xs

/-- `[...new Set(list)]`. -/
def dedupFirst (l : List String) : List String := dedupAux [] l

/-- `DLSiteClient.createGameInfo` (src/platforms/dlsite-api.js:673-788).  The
error result models the `TypeError` thrown by the leftover debug
`console.log('details.product_format:', details.product_format)` at line 720,
which reads a property of `details` without a null guard — the only unguarded
access in the function; the error carries the client state at the throw,
since the cover download above it may already have updated the cache. -/
def createGameInfo (net : String → NetOutcome) (st : DLState)
    (basicInfo : Option ApiRecord) (details : Option HtmlDetails)
    (internalId : Option Nat) (fresh : String) :
    Except (JsError × DLState) (GameInfo × DLState) :=
  let productId : Option String :=
    match jsTruthy (basicInfo.bind (·.product_id)) with
    | some pid => some pid
    | none =>
      match jsTruthy (details.bind (·.productId)) with
      | some pid => some pid
      | none => none
  let pidStr :=
    match productId with
    | some p => p
    | none => "null"
  let gameId := generateGameId fresh productId internalId
  let coverPair : Option String × DLState :=
    match jsTruthy (details.bind (·.coverImage)) with
    | some cov =>
      let r := downloadImage net st (some cov) productId internalId
      (r.1, r.2.1)
    | none =>
      match jsTruthy (basicInfo.bind (·.work_image)) with
      | some img =>
        let r := downloadImage net st (some img) productId internalId
        (r.1, r.2.1)
      | none => (none, st)
  let filteredGenres :=
    match details.bind (·.genre) with
    | some gs => gs.filter (fun g => !(excludeFromGenres.contains g))
    | none => []
  let allTags := dedupFirst (filteredGenres ++
    (match details.bind (·.tags) with
     | some ts => ts.filter (fun t => !(excludeFromTags.contains t))
     | none => []))
  match details with
  | none => .error (.typeError, coverPair.2)
  | some d =>
    .ok ({ id := gameId
           title := orStr d.work_name
             (orStr (basicInfo.bind (·.work_name)) ("DLSite Game " ++ pidStr))
           developer := orStr d.circle
             (orStr (basicInfo.bind (·.maker_name)) "Unknown Developer")
           publisher := orStr d.publisher
             (orStr d.circle (orStr (basicInfo.bind (·.maker_name)) "DLSite"))
           productFormat := orStr d.product_format ""
           ageRating := orStr d.age_rating (orStr (basicInfo.bind (·.age_rating)) "R18")
           fileFormat := orStr d.file_format (orStr (basicInfo.bind (·.file_format)) "Unknown")
           genre := match filteredGenres with
             | g :: _ => g
             | [] => "Visual Novel"
           releaseDate := orStr d.release_date (orStr (basicInfo.bind (·.regist_date)) "")
           updateDate := orStr d.update_date ""
           description := orStr d.description
             (orStr (basicInfo.bind (·.description)) ("A game from DLSite with ID " ++ pidStr))
           coverImage := orStr coverPair.1 ""
           source := "DLSite"
           dlsiteId := productId
           dlsiteUrl := "https://www.dlsite.com/maniax/work/=/product_id/" ++ pidStr ++ ".html"
           dlsiteCircle := jsOrOpt d.circle (basicInfo.bind (·.maker_name))
           dlsiteTags := allTags
           dlsiteVoiceActors := jsOrList d.voice_actor
           dlsiteReleaseDate := orStr d.release_date (orStr (basicInfo.bind (·.regist_date)) "")
           dlsiteUpdateDate := orStr d.update_date ""
           dlsiteFileSize := orStr d.file_size ""
           dlsiteAgeRating := orStr d.age_rating ""
           dlsiteProductFormat := orStr d.product_format ""
           dlsiteFileFormat := orStr d.file_format ""
           language := orStr d.language "Japanese"
           authors := jsOrList d.author
           illustrators := jsOrList d.illustration
           scenario := jsOrList d.scenario
           genreList := filteredGenres }, coverPair.2)

/-- The fallback object built in `getGameInfo`'s `catch` block
(src/platforms/dlsite-api.js:853-868). -/
structure FallbackRecord where
  id : String
  error : Bool
  message : String
  title : String
  developer : String
  publisher : String
  genre : String
  description : String
  coverImage : String
  source : String
  dlsiteId : String
  dlsiteUrl : String

/-- Result of the top-level pipeline entry point: the synthesized record or
the catch-block fallback object. -/
inductive GameResult where
  | ok (g : GameInfo)
  | fallback (f : FallbackRecord)

/-- `error.message` of a modelled JS exception. -/
def errMessage : JsError → String
  | .typeError => "Cannot read properties of null (reading 'product_format')"
  | .thrown m => m

/-- The record returned from `getGameInfo`'s `catch` block for an error `e`. -/
def fallbackRecord (productId : String) (internalId : Option Nat) (fresh : String)
    (e : JsError) : FallbackRecord :=
  { id := generateGameId fresh (some productId) internalId
    error := true
    message := "Error: " ++ errMessage e
    title := "DLSite Game " ++ productId
    developer := "Unknown Developer"
    publisher := "DLSite"
    genre := "Visual Novel"
    description := "A game from DLSite with ID " ++ productId
    coverImage := ""
    source := "DLSite"
    dlsiteId := productId
    dlsiteUrl := "https://www.dlsite.com/maniax/work/=/product_id/" ++ productId ++ ".html" }

/-- The stub `{ product_id: productId }` substituted when the API fetch fails
(src/platforms/dlsite-api.js:816). -/
def emptyApi (pid : String) : ApiRecord := { product_id := some pid }

/-- The stub `{ productId: productId }` substituted when the HTML fetch fails
(src/platforms/dlsite-api.js:830). -/
def emptyDetails (pid : String) : HtmlDetails := { productId := some pid }

/-- `DLSiteClient.getGameInfo` (src/platforms/dlsite-api.js:797-870).  The two
fetch steps are oracles (`apiOutcome`, `htmlOutcome`): each is caught by its
own inner `try`/`catch` and replaced by a stub record on failure, so the
synthesizer always receives non-null inputs; the outer `catch` converts any
remaining throw into the fallback record. -/
def getGameInfo (net : String → NetOutcome) (st : DLState)
    (apiOutcome : Except String ApiRecord) (htmlOutcome : Except String HtmlDetails)
    (productId : String) (internalId : Option Nat) (fresh : String) :
    GameResult × DLState :=
  let basicInfo : Option ApiRecord :=
    match apiOutcome with
    | .ok b => some b
    | .error _ => some (emptyApi productId)
  let details : Option HtmlDetails :=
    match htmlOutcome with
    | .ok d => some d
    | .error _ => some (emptyDetails productId)
  match createGameInfo net st basicInfo details internalId fresh with
  | .ok (g, st') => (.ok g, st')
  | .error (e, st') => (.fallback (fallbackRecord productId internalId fresh e), st')

/-- C1: synthesizing a record from `(undefined, undefined, seqId)` does NOT
succeed — `createGameInfo` rejects with a `TypeError`, because the leftover
debug `console.log` at src/platforms/dlsite-api.js:720 reads
`details.product_format` without the null guard every deliberate access in
the function has.  This evaluates the code at the failing input. -/
theorem c1_createGameInfo_throws :
    createGameInfo net404 st0 none none (some 1) "1700000000000_ab12cd"
      = .error (.typeError, st0) := rfl

/-- The HTML-field record of the C2 scenario: genre list
`["R18", "Adventure", "Drama"]` (and `details.tags`, which `parseWorkHTML`
copies from the genre list). -/
def c2Details : HtmlDetails :=
  { genre := some ["R18", "Adventure", "Drama"], tags := some ["R18", "Adventure", "Drama"] }

/-- C2 counterexample: for the genre list `["R18", "Adventure", "Drama"]` the
synthesizer's primary genre is `"Drama"`, not `"Adventure"` — the hard-coded
exclusion list contains `"Adventure"` as well as `"R18"`, so `"Adventure"` is
filtered out of the genre list too. -/
theorem c2_counterexample :
    (createGameInfo net404 st0 none (some c2Details) none "f").map (fun r => r.1.genre)
        = .ok "Drama"
      ∧ "Drama" ≠ "Adventure" := ⟨rfl, by decide⟩

/-- C2 (amended): for the HTML genre list `["R18", "Adventure", "Drama"]`,
the synthesizer filters the exclusion-listed technical values — which include
both `"R18"` and `"Adventure"` — out of the genre list, sets the record's
singular primary genre field to `"Drama"` (the first remaining true genre),
and `"R18"` does not appear in the final deduplicated tag set
(`["Drama", "Adventure"]`, where `"Adventure"` survives tag filtering because
the tag exclusion list is smaller). -/
theorem c2_genre_filtering_amended :
    (createGameInfo net404 st0 none (some c2Details) none "f").map
        (fun r => (r.1.genre, r.1.dlsiteTags, r.1.genreList))
      = .ok ("Drama", ["Drama", "Adventure"], ["Drama"])
    ∧ "R18" ∉ (["Drama", "Adventure"] : List String) := ⟨rfl, by decide⟩

theorem createGameInfo_ok (net : String → NetOutcome) (st : DLState)
    (b : Option ApiRecord) (d : HtmlDetails) (iid : Option Nat) (fresh : String) :
    ∃ g st', createGameInfo net st b (some d) iid fresh = .ok (g, st') :=
  ⟨_, _, rfl⟩

/-- C9: the top-level `getGameInfo` always resolves to a record and never
rejects: its two fetch steps are individually caught and replaced by stub
records, making the synthesizer's inputs non-null so synthesis succeeds for
every combination of fetch outcomes; and the outer catch branch (taken if any
internal step threw) returns the fallback object with `error: true`, a
generated game id and placeholder title/developer/description embedding the
product id, rather than propagating the exception. -/
theorem c9_getGameInfo_never_rejects (net : String → NetOutcome) (st : DLState)
    (api : Except String ApiRecord) (html : Except String HtmlDetails)
    (pid : String) (iid : Option Nat) (fresh : String) :
    (∃ g st', getGameInfo net st api html pid iid fresh = (.ok g, st'))
      ∧ (∀ e, (fallbackRecord pid iid fresh e).error = true
          ∧ (fallbackRecord pid iid fresh e).id = generateGameId fresh (some pid) iid
          ∧ (fallbackRecord pid iid fresh e).title = "DLSite Game " ++ pid
          ∧ (fallbackRecord pid iid fresh e).developer = "Unknown Developer"
          ∧ (fallbackRecord pid iid fresh e).description
              = "A game from DLSite with ID " ++ pid) := by
  constructor
  · have hok : ∀ (b : Option ApiRecord) (d : HtmlDetails),
        ∃ g st', createGameInfo net st b (some d) iid fresh = .ok (g, st') :=
      fun b d => createGameInfo_ok net st b d iid fresh
    cases api with
    | ok b =>
      cases html with
      | ok d =>
        obtain ⟨g, st', h⟩ := hok (some b) d
        exact ⟨g, st', by simp [getGameInfo, h]⟩
      | error m =>
        obtain ⟨g, st', h⟩ := hok (some b) (emptyDetails pid)
        exact ⟨g, st', by simp [getGameInfo, h]⟩
    | error m =>
      cases html with
      | ok d =>
        obtain ⟨g, st', h⟩ := hok (some (emptyApi pid)) d
        exact ⟨g, st', by simp [getGameInfo, h]⟩
      | error m' =>
        obtain ⟨g, st', h⟩ := hok (some (emptyApi pid)) (emptyDetails pid)
        exact ⟨g, st', by simp [getGameInfo, h]⟩
  · intro e
    exact ⟨rfl, rfl, rfl, rfl, rfl⟩

/-- Outcome of one candidate-URL request inside `getWorkDetails`: a thrown
network error (caught by the per-URL `try`/`catch`) or a response with its
`ok` flag and body text. -/
inductive FetchOutcome where
  | thrown (msg : String)
  | response (ok : Bool) (body : String)

/-- A candidate succeeded: the request did not throw and `response.ok`. -/
def isSuccess : FetchOutcome → Bool
  | .response true _ => true
  | _ => false

/-- The `for (const url of urls)` loop of `getWorkDetails`
(src/platforms/dlsite-api.js:207-233): the loop `break`s on the first URL
whose request returns an ok response, taking its body text — even when that
body is empty, since the `break` is unconditional on `response.ok`; a thrown
request or a non-ok response just moves on to the next candidate.  The
`if (!html)` falsy-body check happens after the loop and is modelled in
`getWorkDetails` below. -/
def tryUrlsLoop (net : String → FetchOutcome) : List String → Option (String × String)
  | [] => none
  | u :: rest =>
    match net u with
    | .response true body => some (body, u)
    | _ => tryUrlsLoop net rest

/-- JS `url.includes('?')`. -/
def containsChar (c : Char) (s : String) : Bool := s.toList.contains c

/-- Appending the `locale=en_US` query parameter
(src/platforms/dlsite-api.js:194-200). -/
def addLocaleParam (url : String) : String :=
  let separator := if containsChar '?' url then "&" else "?"
  url ++ separator ++ "locale=en_US"

/-- The ordered candidate URLs of `getWorkDetails`
(src/platforms/dlsite-api.js:188-200): the live `work` page then the
`announce` page, each with the locale parameter when the locale is `en_US`. -/
def buildUrls (productId category locale : String) : List String :=
  let baseUrls :=
    ["https://www.dlsite.com/" ++ category ++ "/work/=/product_id/" ++ productId ++ ".html",
     "https://www.dlsite.com/" ++ category ++ "/announce/=/product_id/" ++ productId ++ ".html"]
  if locale = "en_US" then baseUrls.map addLocaleParam else baseUrls

/-- `DLSiteClient.getWorkDetails` (src/platforms/dlsite-api.js:179-249).  The
HTML parser `parseWorkHTML` is an abstract collaborator passed as `parse`.
`html` starts `null` and is only assigned at the loop's `break`, so after the
loop the `if (!html) throw` at line 235 fires both when no candidate
responded ok (`html` still `null`) and when the first ok response had an
empty body text (`""` is falsy); `.error` models that
`Could not retrieve details` throw. -/
def getWorkDetails (parse : String → String → HtmlDetails) (net : String → FetchOutcome)
    (productId category locale : String) : Except JsError HtmlDetails :=
  match tryUrlsLoop net (buildUrls productId category locale) with
  | none => .error (.thrown ("Could not retrieve details for " ++ productId))
  | some (html, finalUrl) =>
    if html = "" then .error (.thrown ("Could not retrieve details for " ++ productId))
    else .ok (parse html finalUrl)

theorem getWorkDetails_eq (parse : String → String → HtmlDetails)
    (net : String → FetchOutcome) (productId category locale : String) :
    getWorkDetails parse net productId category locale =
      match tryUrlsLoop net (buildUrls productId category locale) with
      | none => .error (.thrown ("Could not retrieve details for " ++ productId))
      | some (html, finalUrl) =>
        if html = "" then .error (.thrown ("Could not retrieve details for " ++ productId))
        else .ok (parse html finalUrl) := rfl

theorem getWorkDetails_some (parse : String → String → HtmlDetails)
    (net : String → FetchOutcome) (productId category locale html u : String)
    (h : tryUrlsLoop net (buildUrls productId category locale) = some (html, u)) :
    getWorkDetails parse net productId category locale =
      if html = "" then .error (.thrown ("Could not retrieve details for " ++ productId))
      else .ok (parse html u) := by
  rw [getWorkDetails_eq, h]

theorem tryUrlsLoop_none_iff (net : String → FetchOutcome) (urls : List String) :
    tryUrlsLoop net urls = none ↔ ∀ u ∈ urls, isSuccess (net u) = false := by
  induction urls with
  | nil => simp [tryUrlsLoop]
  | cons u rest ih =>
    cases h : net u with
    | thrown m => simp [tryUrlsLoop, h, isSuccess, ih]
    | response ok body =>
      cases ok with
      | true => simp [tryUrlsLoop, h, isSuccess]
      | false => simp [tryUrlsLoop, h, isSuccess, ih]

theorem tryUrlsLoop_find (net : String → FetchOutcome) (urls : List String) :
    ∀ u, urls.find? (fun v => isSuccess (net v)) = some u →
      ∃ body, net u = .response true body ∧ tryUrlsLoop net urls = some (body, u) := by
  induction urls with
  | nil => intro u h; exact absurd h (by simp)
  | cons v rest ih =>
    intro u h
    cases hv : net v with
    | response ok body =>
      cases ok with
      | true =>
        have hs : isSuccess (net v) = true := by rw [hv]; rfl
        simp only [List.find?, hs] at h
        have hvu : v = u := Option.some.inj h
        subst hvu
        exact ⟨body, hv, by simp [tryUrlsLoop, hv]⟩
      | false =>
        have hs : isSuccess (net v) = false := by rw [hv]; rfl
        simp only [List.find?, hs] at h
        obtain ⟨body', hb, ht⟩ := ih u h
        exact ⟨body', hb, by simp [tryUrlsLoop, hv, ht]⟩
    | thrown m =>
      have hs : isSuccess (net v) = false := by rw [hv]; rfl
      simp only [List.find?, hs] at h
      obtain ⟨body', hb, ht⟩ := ih u h
      exact ⟨body', hb, by simp [tryUrlsLoop, hv, ht]⟩

theorem tryUrlsLoop_some (net : String → FetchOutcome) (urls : List String) :
    ∀ body u, tryUrlsLoop net urls = some (body, u) →
      urls.find? (fun v => isSuccess (net v)) = some u
        ∧ net u = .response true body := by
  induction urls with
  | nil => intro body u h; exact absurd h (by simp [tryUrlsLoop])
  | cons v rest ih =>
    intro body u h
    cases hv : net v with
    | response ok b =>
      cases ok with
      | true =>
        have hs : isSuccess (net v) = true := by rw [hv]; rfl
        simp [tryUrlsLoop, hv] at h
        obtain ⟨hb, hu⟩ := h
        subst hb; subst hu
        exact ⟨by simp [List.find?, hs], hv⟩
      | false =>
        have hs : isSuccess (net v) = false := by rw [hv]; rfl
        simp [tryUrlsLoop, hv] at h
        obtain ⟨hf, hn⟩ := ih body u h
        exact ⟨by simp [List.find?, hs, hf], hn⟩
    | thrown m =>
      have hs : isSuccess (net v) = false := by rw [hv]; rfl
      simp [tryUrlsLoop, hv] at h
      obtain ⟨hf, hn⟩ := ih body u h
      exact ⟨by simp [List.find?, hs, hf], hn⟩

/-- C8 (amended): `getWorkDetails` tries its ordered candidate URLs in
sequence and fails with the no-accessible-URL error exactly when either no
candidate responds ok, or the first ok response has an empty body text (the
loop breaks there without consulting later candidates, and the falsy-`html`
check throws); whenever the first ok response has a non-empty body, it
returns that page's parse, and the failure of earlier candidates is not
itself an error. -/
theorem c8_getWorkDetails_amended (parse : String → String → HtmlDetails)
    (net : String → FetchOutcome) (productId category locale : String) :
    (getWorkDetails parse net productId category locale
        = .error (.thrown ("Could not retrieve details for " ++ productId))
      ↔ ((∀ u ∈ buildUrls productId category locale, isSuccess (net u) = false)
          ∨ (∃ u, (buildUrls productId category locale).find?
                  (fun v => isSuccess (net v)) = some u
              ∧ net u = .response true "")))
    ∧ (∀ u body,
        (buildUrls productId category locale).find? (fun v => isSuccess (net v)) = some u →
        net u = .response true body → body ≠ "" →
        getWorkDetails parse net productId category locale = .ok (parse body u)) := by
  constructor
  · cases h : tryUrlsLoop net (buildUrls productId category locale) with
    | none =>
      constructor
      · intro _
        exact Or.inl ((tryUrlsLoop_none_iff net (buildUrls productId category locale)).mp h)
      · intro _
        rw [getWorkDetails_eq, h]
    | some p =>
      obtain ⟨body, u⟩ := p
      obtain ⟨hfind, hnet⟩ :=
        tryUrlsLoop_some net (buildUrls productId category locale) body u h
      by_cases hb : body = ""
      · subst hb
        constructor
        · intro _
          exact Or.inr ⟨u, hfind, hnet⟩
        · intro _
          rw [getWorkDetails_some parse net productId category locale "" u h, if_pos rfl]
      · constructor
        · intro hcontra
          rw [getWorkDetails_some parse net productId category locale body u h,
            if_neg hb] at hcontra
          exact absurd hcontra (by simp)
        · intro hrhs
          exfalso
          rcases hrhs with hall | ⟨u', hf', hn'⟩
          · have hnone := (tryUrlsLoop_none_iff net (buildUrls productId category locale)).mpr hall
            rw [h] at hnone
            exact absurd hnone (by simp)
          · have huu : u' = u := Option.some.inj (hf'.symm.trans hfind)
            subst huu
            rw [hn'] at hnet
            injection hnet with _ hb2
            exact hb hb2.symm
  · intro u body hfind hnet hbody
    obtain ⟨body', hb', ht⟩ :=
      tryUrlsLoop_find net (buildUrls productId category locale) u hfind
    have hbb : body' = body := by
      have := hb'.symm.trans hnet
      injection this with _ hb2
    subst hbb
    rw [getWorkDetails_some parse net productId category locale body' u ht, if_neg hbody]

/-- A stub for the abstract HTML parser used in the C8 witness. -/
def parseStub : String → String → HtmlDetails :=
  fun h u => { description := some (h ++ "|" ++ u) }

/-- The announce-page candidate URL for product `RJ123456` under locale
`en_US`. -/
def c8AnnounceUrl : String :=
  "https://www.dlsite.com/maniax/announce/=/product_id/RJ123456.html?locale=en_US"

/-- A network where the first (work-page) candidate throws and the announce
candidate responds ok. -/
def c8Net : String → FetchOutcome :=
  fun u => if u = c8AnnounceUrl then .response true "ANNOUNCE HTML" else .thrown "ECONNRESET"

/-- The work-page candidate URL for product `RJ123456` under locale `en_US`
— the first candidate `getWorkDetails` tries. -/
def c8WorkUrl : String :=
  "https://www.dlsite.com/maniax/work/=/product_id/RJ123456.html?locale=en_US"

/-- A network where every candidate responds ok, but the first (work-page)
response has an empty body text. -/
def c8EmptyNet : String → FetchOutcome :=
  fun u => if u = c8WorkUrl then .response true "" else .response true "REAL HTML"

/-- C8 counterexample: the claim says the no-accessible-URL error occurs only
when every candidate fails, but `getWorkDetails` also throws it when a
candidate responds successfully with an empty body text: the loop `break`s on
the first ok response (here the work page, with body `""`), and the
`if (!html)` check at src/platforms/dlsite-api.js:235 then throws — even
though every candidate (including the untried announce page) responds ok. -/
theorem c8_counterexample :
    isSuccess (c8EmptyNet c8WorkUrl) = true
      ∧ c8WorkUrl ∈ buildUrls "RJ123456" "maniax" "en_US"
      ∧ (∀ u ∈ buildUrls "RJ123456" "maniax" "en_US", isSuccess (c8EmptyNet u) = true)
      ∧ getWorkDetails parseStub c8EmptyNet "RJ123456" "maniax" "en_US"
          = .error (.thrown "Could not retrieve details for RJ123456") :=
  ⟨by decide, by decide, by decide, rfl⟩

/-- C8 witness: the amended theorem applied concretely — with the work page
throwing and the announce page responding ok with a non-empty body,
`getWorkDetails` returns the parse of the announce page; the earlier failure
is not an error. -/
theorem c8_amended_witness :
    getWorkDetails parseStub c8Net "RJ123456" "maniax" "en_US"
      = .ok (parseStub "ANNOUNCE HTML" c8AnnounceUrl) :=
  (c8_getWorkDetails_amended parseStub c8Net "RJ123456" "maniax" "en_US").2
    c8AnnounceUrl "ANNOUNCE HTML" (by decide) rfl (by decide)

/-- `VpnTunnelState` as written by `OpenVPNManager`
(src/modules/openvpn-manager.js). -/
inductive VpnStatus where
  | disconnected
  | connecting
  | connected
  | reconnecting
  | auth_failed
  | connection_refused
  | error
  | disconnecting
deriving DecidableEq

/-- The mutable fields of `OpenVPNManager` relevant to connect/disconnect:
whether a tunnel process handle is held, the `isConnected` flag, the status
string, the SOCKS proxy handle, and the temp credential file path. -/
structure VpnState where
  vpnProcess : Bool
  isConnected : Bool
  connectionStatus : VpnStatus
  socksProxy : Bool
  authFilePath : Option String
deriving DecidableEq

/-- Externally observable side effects of connect/disconnect. -/
inductive VpnEvent where
  | sigterm
  | spawned
  | authFileDeleted
deriving DecidableEq

/-- `OpenVPNManager.cleanup` (src/modules/openvpn-manager.js:305-309): drops
the process handle and proxy and deletes the credential file. -/
def cleanupState (st : VpnState) : VpnState × List VpnEvent :=
  ({ st with vpnProcess := false, socksProxy := false, authFilePath := none },
   match st.authFilePath with
   | some _ => [VpnEvent.authFileDeleted]
   | none => [])

/-- `OpenVPNManager.disconnect` (src/modules/openvpn-manager.js:275-303):
status `disconnecting`, SIGTERM to a live process, `cleanup()`, then status
`disconnected` with `isConnected = false`; resolves `true`.  The delayed
SIGKILL timer is not modelled: `cleanup()` nulls `this.vpnProcess`
synchronously, so the timer's `if (this.vpnProcess)` guard is false when it
fires 5 s later and no SIGKILL is ever sent on this path. -/
def disconnect (st : VpnState) : Bool × VpnState × List VpnEvent :=
  let st1 := { st with connectionStatus := VpnStatus.disconnecting }
  let termEvents := if st1.vpnProcess then [VpnEvent.sigterm] else []
  let (st2, cleanEvents) := cleanupState st1
  (true,
   { st2 with connectionStatus := VpnStatus.disconnected, isConnected := false },
   termEvents ++ cleanEvents)

/-- Oracles for the external effects of `connectToVPN`: the executable probe,
the `waitForConnection` outcome, and the SOCKS-proxy probe. -/
structure ConnectEnv where
  findExe : Option String
  waitResult : Except String Unit
  socksOk : Bool

/-- `OpenVPNManager.connectToVPN` (src/modules/openvpn-manager.js:99-150).
The whole body is a `try` whose `catch` sets the status to `error`, awaits
`disconnect()` and rethrows; the first statement throws when
`this.isConnected` is already `true`.  The config path only flows into the
spawn arguments and is omitted. -/
def connectToVPN (env : ConnectEnv) (st : VpnState) (username password : Option String) :
    Except String Bool × VpnState × List VpnEvent :=
  if st.isConnected then
    let stE := { st with connectionStatus := VpnStatus.error }
    let (_, st2, evs) := disconnect stE
    (.error "VPN ist bereits verbunden", st2, evs)
  else
    let st1 := { st with connectionStatus := VpnStatus.connecting }
    match env.findExe with
    | none =>
      let stE := { st1 with connectionStatus := VpnStatus.error }
      let (_, st2, evs) := disconnect stE
      (.error "OpenVPN executable nicht gefunden. Bitte installieren Sie OpenVPN.", st2, evs)
    | some _ =>
      let st2 :=
        if username.isSome && password.isSome then { st1 with authFilePath := some "auth.txt" }
        else st1
      let st3 := { st2 with vpnProcess := true }
      match env.waitResult with
      | .error msg =>
        let stE := { st3 with connectionStatus := VpnStatus.error }
        let (_, st4, evs) := disconnect stE
        (.error msg, st4, VpnEvent.spawned :: evs)
      | .ok _ =>
        let st4 := { st3 with socksProxy := env.socksOk }
        (.ok true,
         { st4 with isConnected := true, connectionStatus := VpnStatus.connected },
         [VpnEvent.spawned])

/-- C10: calling `connectToVPN` while the controller already reports
connected rejects with the `VPN ist bereits verbunden` error, and as a side
effect the existing tunnel is torn down: `disconnect()` runs (SIGTERM is sent
to the live tunnel process), the process handle is dropped, and the state
ends `disconnected` with `isConnected = false` — the prior connection is not
left intact. -/
theorem c10_connect_while_connected (env : ConnectEnv) (st : VpnState)
    (username password : Option String) (h : st.isConnected = true) :
    (connectToVPN env st username password).1 = .error "VPN ist bereits verbunden"
      ∧ (connectToVPN env st username password).2.1.isConnected = false
      ∧ (connectToVPN env st username password).2.1.connectionStatus = VpnStatus.disconnected
      ∧ (connectToVPN env st username password).2.1.vpnProcess = false
      ∧ (st.vpnProcess = true →
          VpnEvent.sigterm ∈ (connectToVPN env st username password).2.2) := by
  have hcon : connectToVPN env st username password =
      (.error "VPN ist bereits verbunden",
       ⟨false, false, VpnStatus.disconnected, false, none⟩,
       (if st.vpnProcess then [VpnEvent.sigterm] else [])
         ++ (match st.authFilePath with
             | some _ => [VpnEvent.authFileDeleted]
             | none => [])) := by
    unfold connectToVPN
    rw [if_pos h]
    rfl
  refine ⟨by rw [hcon], by rw [hcon], by rw [hcon], by rw [hcon], ?_⟩
  intro hp
  rw [hcon]
  simp [hp]

/-- C10 witness: the theorem at a concrete connected state holding a live
process, a proxy and a credential file. -/
theorem c10_witness :
    (connectToVPN ⟨some "/usr/sbin/openvpn", .ok (), true⟩
        ⟨true, true, VpnStatus.connected, true, some "auth.txt"⟩ none none).1
      = .error "VPN ist bereits verbunden"
    ∧ (connectToVPN ⟨some "/usr/sbin/openvpn", .ok (), true⟩
        ⟨true, true, VpnStatus.connected, true, some "auth.txt"⟩ none none).2.1.isConnected
      = false
    ∧ VpnEvent.sigterm ∈ (connectToVPN ⟨some "/usr/sbin/openvpn", .ok (), true⟩
        ⟨true, true, VpnStatus.connected, true, some "auth.txt"⟩ none none).2.2 :=
  let h := c10_connect_while_connected ⟨some "/usr/sbin/openvpn", .ok (), true⟩
    ⟨true, true, VpnStatus.connected, true, some "auth.txt"⟩ none none rfl
  ⟨h.1, h.2.1, h.2.2.2.2 rfl⟩

end Dust
